import Mathlib

/-!
Verification of the stock / inventory / purchase bookkeeping layer of the
2025-Interactifs-Gestion application.

The Python modules embedded here:
- `modules/stock_db.py`   : `get_stock`, `set_stock`, `adjust_stock`,
  `apply_inventory_snapshot`, `revert_inventory_effect`,
  `create_purchase_batch`, `consume_purchase_batches_fifo`,
  `recompute_stock_for_article`
- `modules/buvette_db.py` : `insert_achat`, `delete_achat`
- `modules/buvette_inventaire_db.py` : `delete_inventaire`
- `modules/db_api.py`     : `execute` (retry-on-lock write helper)
- `src/db/row_utils.py`   : `row_to_dict`, `rows_to_dicts`

SQLite REAL values are modelled as rationals (ℚ), INTEGER as ℤ, NULLable
columns as `Option`.  The database state is a record of the tables the
functions above read and write.  Python exceptions are modelled with
`Except`; a `try/except` that swallows an error becomes a `match` on the
`Except` value.
-/

namespace Gestion

/-- A row of `buvette_articles` restricted to the columns the embedded code
touches: `stock` (INTEGER, NULLable) and `purchase_price` (REAL, NULLable). -/
structure Article where
  stock : Option Int
  purchase_price : Option ℚ
  deriving Repr, DecidableEq

/-- A row of `inventory_stock_journal` (columns used by the code). -/
structure JournalRow where
  inventaire_id : Nat
  article_id : Nat
  delta : Int
  deriving Repr, DecidableEq

/-- A row of `buvette_inventaire_lignes` (columns used by the code). -/
structure LigneRow where
  inventaire_id : Nat
  article_id : Nat
  quantite : Int
  deriving Repr, DecidableEq

/-- A row of `buvette_achats` (columns used by the code). -/
structure AchatRow where
  id : Nat
  article_id : Nat
  quantite : Int
  prix_unitaire : Option ℚ
  deriving Repr, DecidableEq

/-- A row of `article_purchase_batches` (columns used by the code). -/
structure Batch where
  id : Nat
  article_id : Nat
  quantity : Int
  remaining_quantity : Int
  unit_price : ℚ
  purchase_date : Nat
  scope : String
  deriving Repr, DecidableEq

/-- A row of `buvette_mouvements` (columns used by
`recompute_stock_for_article`). -/
structure Mouvement where
  type_mouvement : String
  quantite : Option Int
  deriving Repr, DecidableEq

/-- The database state: the tables touched by the embedded functions.
`articles` maps an article id to its row when the row exists. -/
structure Db where
  articles : Nat → Option Article
  journal : List JournalRow
  lignes : List LigneRow
  achats : List AchatRow
  batches : List Batch
  inventaires : List Nat
  mouvements : Nat → List Mouvement

/-- `get_stock(conn, article_id)` as seen through the result of its SELECT:
an error from the driver, or no row, or a row whose `stock` may be NULL.
The Python body returns `row[0] if row[0] is not None else 0` when a row
exists, `0` when none does, and catches every exception, returning `0`. -/
def get_stock_from_query : Except String (Option (Option Int)) → Int
  | .error _ => 0
  | .ok none => 0
  | .ok (some none) => 0
  | .ok (some (some s)) => s

/-- The SELECT `SELECT stock FROM buvette_articles WHERE id=?`. -/
def query_stock (db : Db) (article_id : Nat) : Option (Option Int) :=
  (db.articles article_id).map Article.stock

/-- `get_stock(conn, article_id)` on a database state (the query succeeds). -/
def get_stock (db : Db) (article_id : Nat) : Int :=
  get_stock_from_query (.ok (query_stock db article_id))

/-- `set_stock(conn, article_id, qty)`: `UPDATE buvette_articles SET stock=?
WHERE id=?`.  The UPDATE touches no row when the article does not exist. -/
def set_stock (db : Db) (article_id : Nat) (qty : Int) : Db :=
  { db with articles := fun i =>
      if i = article_id then
        (db.articles i).map fun a => { a with stock := some qty }
      else db.articles i }

/-- `adjust_stock(conn, article_id, delta, reason=None)`:
`new_stock = max(0, current_stock + delta)` then `set_stock`. -/
def adjust_stock (db : Db) (article_id : Nat) (delta : Int) : Db :=
  set_stock db article_id (max 0 (get_stock db article_id + delta))

/-- The SELECT of `apply_inventory_snapshot` over the default candidate
table `buvette_inventaire_lignes`:
`SELECT article_id, quantite FROM buvette_inventaire_lignes WHERE
inventaire_id=?`. -/
def snapshot_lines (db : Db) (inventaire_id : Nat) : List LigneRow :=
  db.lignes.filter fun l => decide (l.inventaire_id = inventaire_id)

/-- One iteration of the `for item in snapshot` loop of
`apply_inventory_snapshot`: read current stock, compute
`delta = new_quantity - current_stock`, `set_stock` to the observed
quantity (no clamping here), and INSERT the journal row. -/
def apply_snapshot_item (inventaire_id : Nat) (db : Db) (l : LigneRow) : Db :=
  let current_stock := get_stock db l.article_id
  let delta := l.quantite - current_stock
  let db1 := set_stock db l.article_id l.quantite
  { db1 with journal := db1.journal ++ [⟨inventaire_id, l.article_id, delta⟩] }

/-- `apply_inventory_snapshot(conn, inventaire_id)` with the default
candidate tables: when no line is found the function logs a warning and
returns with no write. -/
def apply_inventory_snapshot (db : Db) (inventaire_id : Nat) : Db :=
  let snapshot := snapshot_lines db inventaire_id
  if snapshot = [] then db
  else snapshot.foldl (apply_snapshot_item inventaire_id) db

/-- One iteration of the `for row in rows` loop of
`revert_inventory_effect`: `new_stock = max(0, current_stock - delta)`. -/
def revert_item (db : Db) (r : JournalRow) : Db :=
  set_stock db r.article_id (max 0 (get_stock db r.article_id - r.delta))

/-- `revert_inventory_effect(conn, inventaire_id)`: subtract each recorded
delta back out of stock (floor 0), then DELETE the journal rows of the
inventaire. -/
def revert_inventory_effect (db : Db) (inventaire_id : Nat) : Db :=
  let rows := db.journal.filter fun r => decide (r.inventaire_id = inventaire_id)
  let db1 := rows.foldl revert_item db
  { db1 with journal := db1.journal.filter fun r => decide (¬ r.inventaire_id = inventaire_id) }

/-- The signed aggregation of one `buvette_mouvements` row inside
`recompute_stock_for_article`: `entrée`, `inventaire` and `achat` add,
`sortie` subtracts, an unknown type is neutral; a NULL `quantite` counts
as 0. -/
def movement_step (acc : Int) (m : Mouvement) : Int :=
  let quantite := m.quantite.getD 0
  if m.type_mouvement = "entrée" ∨ m.type_mouvement = "inventaire" ∨
      m.type_mouvement = "achat" then acc + quantite
  else if m.type_mouvement = "sortie" then acc - quantite
  else acc

/-- `recompute_stock_for_article(conn, article_id)`: sums the signed
movements, clamps at 0, writes the result with `set_stock` and returns it. -/
def recompute_stock_for_article (db : Db) (article_id : Nat) : Db × Int :=
  let calculated_stock := max 0 ((db.mouvements article_id).foldl movement_step 0)
  (set_stock db article_id calculated_stock, calculated_stock)

/-! ### FIFO purchase batches (`create_purchase_batch`,
`consume_purchase_batches_fifo`) -/

/-- A fresh AUTOINCREMENT id for `article_purchase_batches`. -/
def next_batch_id (db : Db) : Nat :=
  (db.batches.map Batch.id).foldl max 0 + 1

/-- `create_purchase_batch(conn, article_id, quantity, unit_price, achat_id,
scope)`: INSERT with `remaining_quantity = quantity`; `purchase_date`
defaults to the current timestamp, passed here explicitly. -/
def create_purchase_batch (db : Db) (article_id : Nat) (quantity : Int)
    (unit_price : ℚ) (purchase_date : Nat) (scope : String) : Db × Nat :=
  let batch_id := next_batch_id db
  ({ db with batches := db.batches ++
      [⟨batch_id, article_id, quantity, quantity, unit_price, purchase_date, scope⟩] },
   batch_id)

/-- The `ORDER BY purchase_date ASC, id ASC` key of the batch SELECT. -/
def batch_key_le (b c : Batch) : Bool :=
  decide (b.purchase_date < c.purchase_date ∨
    (b.purchase_date = c.purchase_date ∧ b.id ≤ c.id))

/-- Insert a batch into a list sorted by `batch_key_le`. -/
def insert_by_key (b : Batch) : List Batch → List Batch
  | [] => [b]
  | c :: cs => if batch_key_le b c then b :: c :: cs else c :: insert_by_key b cs

/-- Sort a batch list by `(purchase_date, id)` ascending. -/
def sort_by_key : List Batch → List Batch
  | [] => []
  | b :: bs => insert_by_key b (sort_by_key bs)

/-- The batch SELECT of `consume_purchase_batches_fifo`:
`WHERE article_id = ? AND scope = ? AND remaining_quantity > 0
ORDER BY purchase_date ASC, id ASC`. -/
def available_batches (db : Db) (article_id : Nat) (scope : String) : List Batch :=
  sort_by_key (db.batches.filter fun b =>
    decide (b.article_id = article_id ∧ b.scope = scope ∧ 0 < b.remaining_quantity))

/-- One element of the `consumed_batches` result list. -/
structure ConsumedBatch where
  batch_id : Nat
  consumed_quantity : Int
  unit_price : ℚ
  cost : ℚ
  deriving Repr, DecidableEq

/-- `UPDATE article_purchase_batches SET remaining_quantity = ? WHERE id = ?`. -/
def set_batch_remaining (db : Db) (batch_id : Nat) (remaining : Int) : Db :=
  { db with batches := db.batches.map fun b =>
      if b.id = batch_id then { b with remaining_quantity := remaining } else b }

/-- One iteration of the `for row in rows` loop of
`consume_purchase_batches_fifo` over state
(db, total_cost, consumed_batches, remaining_to_consume); the Python
`break` on `remaining_to_consume <= 0` leaves the state unchanged for the
remaining rows. -/
def fifo_step (st : Db × ℚ × List ConsumedBatch × Int) (row : Batch) :
    Db × ℚ × List ConsumedBatch × Int :=
  let (db, total_cost, consumed, remaining_to_consume) := st
  if remaining_to_consume ≤ 0 then st
  else
    let consumed_from_batch := min remaining_to_consume row.remaining_quantity
    let cost_from_batch := (consumed_from_batch : ℚ) * row.unit_price
    let db1 := set_batch_remaining db row.id (row.remaining_quantity - consumed_from_batch)
    (db1, total_cost + cost_from_batch,
     consumed ++ [⟨row.id, consumed_from_batch, row.unit_price, cost_from_batch⟩],
     remaining_to_consume - consumed_from_batch)

/-- `consume_purchase_batches_fifo(conn, article_id, consume_quantity,
scope)`: drain the available batches in FIFO order; if the batches run out
and at least one batch was consumed, cost the shortfall at
`total_cost / units_consumed` per unit and add it; return
(updated db, total_cost, consumed_batches). -/
def consume_purchase_batches_fifo (db : Db) (article_id : Nat)
    (consume_quantity : Int) (scope : String) : Db × ℚ × List ConsumedBatch :=
  let rows := available_batches db article_id scope
  let st := rows.foldl fifo_step (db, 0, [], consume_quantity)
  let (db1, total_cost, consumed_batches, remaining_to_consume) := st
  if 0 < remaining_to_consume ∧ consumed_batches ≠ [] then
    let avg_price := total_cost / ((consume_quantity - remaining_to_consume : Int) : ℚ)
    let additional_cost := (remaining_to_consume : ℚ) * avg_price
    (db1, total_cost + additional_cost, consumed_batches)
  else (db1, total_cost, consumed_batches)

/-! ### `buvette_db.insert_achat` / `delete_achat`

`buvette_db.py` imports `adjust_stock` from `modules.stock_db`, whose
signature is `adjust_stock(conn, article_id, delta, reason=None)`, and
calls it as `adjust_stock(article_id, quantite, reason=...)`: two
positional arguments bind `conn` and `article_id`, the required parameter
`delta` stays unbound, so the call raises `TypeError` before the body
runs.  Both call sites wrap the call in `try/except Exception`, logging a
warning, so the error is swallowed and the stock write never happens. -/

/-- The call `adjust_stock(article_id, quantite, reason=...)` as written in
`insert_achat` / `delete_achat`, bound against
`def adjust_stock(conn, article_id, delta, reason=None)`. -/
def adjust_stock_two_positional (_arg1 : Nat) (_arg2 : Int) :
    Except String (Db → Db) :=
  .error "TypeError: adjust_stock() missing 1 required positional argument: delta"

/-- A fresh AUTOINCREMENT id for `buvette_achats`. -/
def next_achat_id (db : Db) : Nat :=
  (db.achats.map AchatRow.id).foldl max 0 + 1

/-- `insert_achat(article_id, date_achat, quantite, prix_unitaire,
fournisseur, facture, exercice)`: INSERT the purchase row; when
`prix_unitaire is not None`, UPDATE the article's `purchase_price`; then
attempt the stock adjustment (see `adjust_stock_two_positional`), whose
failure is logged and swallowed.  `date_achat`, `fournisseur`, `facture`
and `exercice` are stored columns the embedded claims never read. -/
def insert_achat (db : Db) (article_id : Nat) (_date_achat : String)
    (quantite : Int) (prix_unitaire : Option ℚ) (_fournisseur _facture _exercice : String) : Db :=
  let db1 := { db with achats := db.achats ++
      [⟨next_achat_id db, article_id, quantite, prix_unitaire⟩] }
  let db2 := match prix_unitaire with
    | some p => { db1 with articles := (fun i =>
        if i = article_id then
          (db1.articles i).map (fun a => { a with purchase_price := some p })
        else db1.articles i) }
    | none => db1
  match adjust_stock_two_positional article_id quantite with
  | .error _ => db2
  | .ok f => f db2

/-- `delete_achat(achat_id)`: look the purchase up; when it exists, DELETE
it, then attempt the stock revert (see `adjust_stock_two_positional`),
whose failure is logged and swallowed. -/
def delete_achat (db : Db) (achat_id : Nat) : Db :=
  match db.achats.find? (fun a => decide (a.id = achat_id)) with
  | none => db
  | some a =>
    let db1 := { db with achats := db.achats.filter fun r => decide (¬ r.id = achat_id) }
    match adjust_stock_two_positional a.article_id (-a.quantite) with
    | .error _ => db1
    | .ok f => f db1

/-! ### `buvette_inventaire_db.delete_inventaire`

`delete_inventaire` first calls `revert_inventory_effect(inv_id)`; the
imported signature is `revert_inventory_effect(conn, inventaire_id)`, so
the single positional argument leaves `inventaire_id` unbound and Python
raises `TypeError` before the body runs; the call site swallows it with a
logged warning.  It then discovers every table holding a foreign key into
`buvette_inventaires` — in this schema `buvette_inventaire_lignes` and
`inventory_stock_journal` — deletes the matching child rows, and deletes
the parent row. -/

/-- The call `revert_inventory_effect(inv_id)` as written in
`delete_inventaire`, bound against
`def revert_inventory_effect(conn, inventaire_id)`. -/
def revert_one_positional (_arg1 : Nat) : Except String (Db → Db) :=
  .error "TypeError: revert_inventory_effect() missing 1 required positional argument: inventaire_id"

/-- `delete_inventaire(inv_id)`. -/
def delete_inventaire (db : Db) (inv_id : Nat) : Db :=
  let db1 := match revert_one_positional inv_id with
    | .error _ => db
    | .ok f => f db
  let db2 := { db1 with
    lignes := db1.lignes.filter fun l => decide (¬ l.inventaire_id = inv_id),
    journal := db1.journal.filter fun r => decide (¬ r.inventaire_id = inv_id) }
  { db2 with inventaires := db2.inventaires.filter fun i => decide (¬ i = inv_id) }

/-! ### `src/db/row_utils.py` -/

/-- A value passed to `row_to_dict`: the absent value (`None`), a mapping
(`dict`), or a row-like object (`sqlite3.Row`, convertible by `dict(row)`).
Field values are drawn from an arbitrary type `α`. -/
inductive Rowish (α : Type) where
  | absent : Rowish α
  | dict : List (String × α) → Rowish α
  | row : List (String × α) → Rowish α
  deriving Repr, DecidableEq

/-- `row_to_dict(row)`: `None` stays `None`, a `dict` is returned as-is,
a `sqlite3.Row` is converted with `dict(row)`. -/
def row_to_dict {α : Type} : Rowish α → Rowish α
  | .absent => .absent
  | .dict d => .dict d
  | .row r => .dict r

/-- The body of the `for row in rows` loop of `rows_to_dicts`:
`converted = row_to_dict(row); if converted is not None:
result.append(converted)`. -/
def rows_to_dicts_step {α : Type} [DecidableEq α]
    (result : List (Rowish α)) (r : Rowish α) : List (Rowish α) :=
  let converted := row_to_dict r
  if converted = .absent then result else result ++ [converted]

/-- `rows_to_dicts(rows)`: `if not rows: return []`, then the accumulation
loop appending each conversion that `is not None`. -/
def rows_to_dicts {α : Type} [DecidableEq α] (rows : List (Rowish α)) : List (Rowish α) :=
  if rows.isEmpty then []
  else rows.foldl rows_to_dicts_step []

/-! ### `db_api.execute` (retry-on-lock write helper)

Each attempt opens a connection and executes the statement; the outcome of
the `attempt`-th try is modelled by a function `Nat → AttemptOutcome`.
An `sqlite3.OperationalError` whose lowercased message contains "locked"
triggers, on every attempt but the last, a `time.sleep(delay)` followed by
`delay *= 2`; every other error path rolls back and re-raises. -/

/-- The outcome of one execution attempt: success with a row count, an
`sqlite3.OperationalError` with its message, or any other exception. -/
inductive AttemptOutcome where
  | success : Int → AttemptOutcome
  | operationalError : String → AttemptOutcome
  | otherError : String → AttemptOutcome
  deriving Repr, DecidableEq

/-- The error `execute` re-raises. -/
inductive ExecError where
  | operational : String → ExecError
  | other : String → ExecError
  deriving Repr, DecidableEq

/-- `"locked" in str(e).lower()`: the message is lowercased character by
character and searched for the substring "locked". -/
def is_lock_message (msg : String) : Bool :=
  decide (List.IsInfix "locked".toList (msg.toList.map Char.toLower))

/-- What a run of `execute` did: how many attempts ran, which sleeps were
performed (in order), whether the failing attempt rolled back, and the
returned row count (`.ok none` models the implicit `None` returned when
`retries = 0` makes the loop body never run) or the raised error. -/
structure ExecTrace where
  attempts : Nat
  sleeps : List ℚ
  rolled_back : Bool
  result : Except ExecError (Option Int)
  deriving Repr

/-- The `for attempt in range(retries)` loop of `execute`, structurally
recursive on the number of remaining iterations (`fuel = retries -
attempt`). -/
def execute_go (outcomes : Nat → AttemptOutcome) (retries : Nat) :
    Nat → Nat → ℚ → List ℚ → ExecTrace
  | 0, attempt, _, slept => ⟨attempt, slept.reverse, false, .ok none⟩
  | fuel + 1, attempt, delay, slept =>
    match outcomes attempt with
    | .success n => ⟨attempt + 1, slept.reverse, false, .ok (some n)⟩
    | .operationalError msg =>
      if is_lock_message msg ∧ attempt < retries - 1 then
        execute_go outcomes retries fuel (attempt + 1) (delay * 2) (delay :: slept)
      else ⟨attempt + 1, slept.reverse, true, .error (.operational msg)⟩
    | .otherError msg => ⟨attempt + 1, slept.reverse, true, .error (.other msg)⟩

/-- `execute(query, params, commit, retries=3, retry_delay=0.5)`. -/
def execute (outcomes : Nat → AttemptOutcome) (retries : Nat) (retry_delay : ℚ) :
    ExecTrace :=
  execute_go outcomes retries retries 0 retry_delay []

/-! ### Concrete database states used to exercise the operations -/

/-- A database with every table empty. -/
def empty_db : Db where
  articles := fun _ => none
  journal := []
  lignes := []
  achats := []
  batches := []
  inventaires := []
  mouvements := fun _ => []

/-- One article (id 1, stock 5) and one recorded purchase (id 1, article 1,
quantity 3, unit price 2). -/
def db_c1 : Db :=
  { empty_db with
    articles := fun i => if i = 1 then some ⟨some 5, none⟩ else none,
    achats := [⟨1, 1, 3, some 2⟩] }

/-- One article (id 1, stock 8), one inventaire (id 1) whose single line
observed quantity 8, and the journal row (inventaire 1, article 1,
delta 3) recorded when the snapshot raised stock from 5 to 8. -/
def db_c2 : Db :=
  { empty_db with
    articles := fun i => if i = 1 then some ⟨some 8, none⟩ else none,
    inventaires := [1],
    lignes := [⟨1, 1, 5⟩],
    journal := [⟨1, 1, 3⟩] }

/-- Two articles (id 1 stock 5, id 2 stock 10) and the two lines of
inventaire 1 observing quantities 8 and 7 for them. -/
def db_c3 : Db :=
  { empty_db with
    articles := fun i =>
      if i = 1 then some ⟨some 5, none⟩
      else if i = 2 then some ⟨some 10, none⟩
      else none,
    lignes := [⟨1, 1, 8⟩, ⟨1, 2, 7⟩] }

/-- One article (id 1, stock 0). -/
def db_c4 : Db :=
  { empty_db with
    articles := fun i => if i = 1 then some ⟨some 0, none⟩ else none }

/-- One article (id 1, stock 5) and one inventory line (inventaire 1,
article 1) with a negative observed quantity. -/
def db_c5 : Db :=
  { empty_db with
    articles := fun i => if i = 1 then some ⟨some 5, none⟩ else none,
    lignes := [⟨1, 1, -1⟩] }

/-- One article (id 1, stock 2). -/
def db_c5w : Db :=
  { empty_db with
    articles := fun i => if i = 1 then some ⟨some 2, none⟩ else none }

/-- One article (id 7, stock 5). -/
def db_c9 : Db :=
  { empty_db with
    articles := fun i => if i = 7 then some ⟨some 5, none⟩ else none }

/-! ### Claim theorems -/

/-- `row_to_dict r` is the absent value exactly when `r` is. -/
lemma row_to_dict_eq_absent {α : Type} (r : Rowish α) :
    row_to_dict r = .absent ↔ r = .absent := by
  cases r <;> simp [row_to_dict]

/-- The accumulation loop of `rows_to_dicts` appends, in order, the
conversions of the non-absent elements. -/
lemma rows_to_dicts_loop {α : Type} [DecidableEq α]
    (rows : List (Rowish α)) (acc : List (Rowish α)) :
    rows.foldl rows_to_dicts_step acc
      = acc ++ (rows.filter fun r => decide (¬ r = .absent)).map row_to_dict := by
  induction rows generalizing acc with
  | nil => simp
  | cons r rest ih =>
    rw [List.foldl_cons]
    cases r with
    | absent =>
      have hstep : rows_to_dicts_step acc Rowish.absent = acc := by
        simp [rows_to_dicts_step, row_to_dict]
      rw [hstep, ih acc]
      simp [row_to_dict]
    | dict d =>
      have hstep : rows_to_dicts_step acc (Rowish.dict d) = acc ++ [Rowish.dict d] := by
        simp [rows_to_dicts_step, row_to_dict]
      rw [hstep, ih (acc ++ [Rowish.dict d])]
      simp [row_to_dict]
    | row d =>
      have hstep : rows_to_dicts_step acc (Rowish.row d) = acc ++ [Rowish.dict d] := by
        simp [rows_to_dicts_step, row_to_dict]
      rw [hstep, ih (acc ++ [Rowish.dict d])]
      simp [row_to_dict]

/-- C8: `row_to_dict` is idempotent and maps the absent value to the
absent value; `rows_to_dicts` maps `[]` to `[]` and maps any sequence to
the ordered list of conversions of its non-absent elements. -/
theorem C8_row_conversions {α : Type} [DecidableEq α] :
    (∀ r : Rowish α, row_to_dict (row_to_dict r) = row_to_dict r) ∧
    (row_to_dict (Rowish.absent : Rowish α) = Rowish.absent) ∧
    (rows_to_dicts ([] : List (Rowish α)) = []) ∧
    (∀ rows : List (Rowish α),
      rows_to_dicts rows
        = (rows.filter fun r => decide (¬ r = .absent)).map row_to_dict) := by
  refine ⟨fun r => by cases r <;> simp [row_to_dict], rfl, rfl, fun rows => ?_⟩
  cases rows with
  | nil => rfl
  | cons r rest =>
    unfold rows_to_dicts
    simpa using rows_to_dicts_loop (r :: rest) []

/-- C8 witness: the generic statement applied at a concrete value type. -/
theorem C8_row_conversions_witness :
    rows_to_dicts [Rowish.row [("a", (1 : Int))], Rowish.absent,
        Rowish.dict [("b", 2)]]
      = [Rowish.dict [("a", 1)], Rowish.dict [("b", 2)]] := by
  rw [(C8_row_conversions (α := Int)).2.2.2]
  decide

/-- C9: `get_stock` is total: it returns the stored stock when the row
exists with a non-NULL stock, and 0 when the row is absent, the stock is
NULL, or the query errored (the error is swallowed). -/
theorem C9_get_stock_total (db : Db) (article_id : Nat) (e : String) :
    get_stock_from_query (.error e) = 0 ∧
    (db.articles article_id = none → get_stock db article_id = 0) ∧
    (∀ p, db.articles article_id = some ⟨none, p⟩ → get_stock db article_id = 0) ∧
    (∀ s p, db.articles article_id = some ⟨some s, p⟩ → get_stock db article_id = s) := by
  refine ⟨rfl, fun h => ?_, fun p h => ?_, fun s p h => ?_⟩ <;>
    simp [get_stock, query_stock, get_stock_from_query, h]

/-- C9 witness: the stored stock is returned on an existing article, and an
errored query yields 0. -/
theorem C9_get_stock_total_witness :
    get_stock db_c9 7 = 5 ∧ get_stock_from_query (.error "boom") = 0 :=
  ⟨(C9_get_stock_total db_c9 7 "boom").2.2.2 5 none rfl,
   (C9_get_stock_total db_c9 7 "boom").1⟩

/-- C10: with no positive-remaining batch for the article in the scope,
`consume_purchase_batches_fifo` returns cost 0 with no consumed batch and
leaves the database unchanged. -/
theorem C10_fifo_no_batches (db : Db) (article_id : Nat) (q : Int) (scope : String)
    (_hq : 0 < q)
    (h : db.batches.filter (fun b =>
        decide (b.article_id = article_id ∧ b.scope = scope ∧ 0 < b.remaining_quantity)) = []) :
    consume_purchase_batches_fifo db article_id q scope = (db, 0, []) := by
  unfold consume_purchase_batches_fifo available_batches
  rw [h]
  simp [sort_by_key]

/-- C10 witness: consuming 5 units from a database with no batches at all. -/
theorem C10_fifo_no_batches_witness :
    consume_purchase_batches_fifo empty_db 1 5 "buvette" = (empty_db, 0, []) :=
  C10_fifo_no_batches empty_db 1 5 "buvette" (by decide) rfl

/-- C1: on article 1 with stock 5, `insert_achat` of quantity 3 records the
purchase and updates `purchase_price`, but leaves the stock at 5 (the
claim expects 8): the internal `adjust_stock(article_id, quantite, ...)`
call raises `TypeError` (missing `delta`) which is caught and only logged.
`delete_achat` of the stored purchase (quantity 3) likewise leaves the
stock at 5 (the claim expects 2). -/
theorem C1_achat_stock_never_adjusted :
    get_stock (insert_achat db_c1 1 "2025-01-01" 3 (some 2) "F" "FA-1" "2025") 1 = 5 ∧
    (insert_achat db_c1 1 "2025-01-01" 3 (some 2) "F" "FA-1" "2025").articles 1
      = some ⟨some 5, some 2⟩ ∧
    get_stock (delete_achat db_c1 1) 1 = 5 ∧
    (delete_achat db_c1 1).achats = [] := by
  refine ⟨rfl, rfl, rfl, rfl⟩

/-- C2: `delete_inventaire` on inventaire 1 (line observing 5, journal
delta +3, article stock 8) removes the inventaire row, its lines and its
journal rows, but leaves the stock at 8: the internal
`revert_inventory_effect(inv_id)` call raises `TypeError` (missing
`inventaire_id`) which is caught and only logged.  A correctly invoked
`revert_inventory_effect` would have set the stock to 5. -/
theorem C2_delete_inventaire_skips_revert :
    (delete_inventaire db_c2 1).inventaires = [] ∧
    (delete_inventaire db_c2 1).lignes = [] ∧
    (delete_inventaire db_c2 1).journal = [] ∧
    get_stock (delete_inventaire db_c2 1) 1 = 8 ∧
    get_stock (revert_inventory_effect db_c2 1) 1 = 5 := by
  refine ⟨rfl, rfl, rfl, rfl, rfl⟩

/-- A sequence of `adjust_stock` calls on the same article. -/
def adjust_stock_seq (db : Db) (article_id : Nat) (deltas : List Int) : Db :=
  deltas.foldl (fun db d => adjust_stock db article_id d) db

/-- C4 counterexample: starting from stock 0, the calls
`adjust_stock(-1)` then `adjust_stock(+1)` leave stock 1, while
`max(0, S + d1 + d2) = max(0, 0) = 0`: clamping happens at every call, so
the running sum formula of the claim is wrong once a partial sum is
clamped. -/
theorem C4_counterexample :
    get_stock (adjust_stock_seq db_c4 1 [-1, 1]) 1 ≠ max 0 (0 + (-1) + 1 : Int) := by
  decide

/-- After `adjust_stock`, an existing article's row holds the clamped
adjusted stock. -/
lemma adjust_stock_articles (db : Db) (a : Nat) (d S : Int) (p : Option ℚ)
    (h : db.articles a = some ⟨some S, p⟩) :
    (adjust_stock db a d).articles a = some ⟨some (max 0 (S + d)), p⟩ := by
  simp [adjust_stock, set_stock, get_stock, query_stock, get_stock_from_query, h]

/-- The stock after a sequence of `adjust_stock` calls is the left fold of
the per-call clamped addition. -/
lemma adjust_stock_seq_fold (l : List Int) :
    ∀ (db : Db) (a : Nat) (S : Int) (p : Option ℚ),
      db.articles a = some ⟨some S, p⟩ →
      get_stock (adjust_stock_seq db a l) a = l.foldl (fun s d => max 0 (s + d)) S := by
  induction l with
  | nil =>
    intro db a S p h
    simp [adjust_stock_seq, get_stock, query_stock, get_stock_from_query, h]
  | cons d rest ih =>
    intro db a S p h
    have h2 := adjust_stock_articles db a d S p h
    exact ih (adjust_stock db a d) a (max 0 (S + d)) p h2

/-- C4 amended: after the k-th `adjust_stock` call the stored stock is the
k-fold left fold of `s ↦ max(0, s + d)` over the deltas, starting from S
(clamping applies at every step, not once at the end). -/
theorem C4_adjust_stock_fold (db : Db) (a : Nat) (S : Int) (p : Option ℚ)
    (deltas : List Int) (k : Nat)
    (h : db.articles a = some ⟨some S, p⟩) (_hS : 0 ≤ S) :
    get_stock (adjust_stock_seq db a (deltas.take k)) a
      = (deltas.take k).foldl (fun s d => max 0 (s + d)) S :=
  adjust_stock_seq_fold (deltas.take k) db a S p h

/-- C4 witness: the fold formula at S = 0, deltas [-1, 1], k = 2. -/
theorem C4_adjust_stock_fold_witness :
    get_stock (adjust_stock_seq db_c4 1 ([-1, 1].take 2)) 1
      = ([-1, 1].take 2).foldl (fun s d => max 0 (s + d)) 0 :=
  C4_adjust_stock_fold db_c4 1 0 none [-1, 1] 2 rfl (by decide)

/-- An article row determines `get_stock`. -/
lemma get_stock_eq (db : Db) (a : Nat) (s : Int) (p : Option ℚ)
    (h : db.articles a = some ⟨some s, p⟩) : get_stock db a = s := by
  simp [get_stock, query_stock, get_stock_from_query, h]

/-- `set_stock` on another article leaves an article's row unchanged. -/
lemma set_stock_articles_other (db : Db) (i a : Nat) (q : Int) (h : a ≠ i) :
    (set_stock db i q).articles a = db.articles a := by
  simp [set_stock, h]

/-- The snapshot loop over lines of other articles leaves an article's row
unchanged. -/
lemma apply_fold_stock_other (inv a : Nat) (ls : List LigneRow)
    (ha : ∀ x ∈ ls, x.article_id ≠ a) :
    ∀ db, (ls.foldl (apply_snapshot_item inv) db).articles a = db.articles a := by
  induction ls with
  | nil => intro db; rfl
  | cons x rest ih =>
    intro db
    rw [List.foldl_cons, ih (fun y hy => ha y (List.mem_cons_of_mem _ hy))]
    exact set_stock_articles_other db x.article_id a x.quantite
      (fun he => ha x (List.mem_cons_self _ _) he.symm)

/-- The snapshot loop over lines of other articles adds no journal row for
(inv, a). -/
lemma apply_fold_journal_other (inv a : Nat) (ls : List LigneRow)
    (ha : ∀ x ∈ ls, x.article_id ≠ a) :
    ∀ db, (ls.foldl (apply_snapshot_item inv) db).journal.filter
        (fun r => decide (r.inventaire_id = inv ∧ r.article_id = a))
      = db.journal.filter (fun r => decide (r.inventaire_id = inv ∧ r.article_id = a)) := by
  induction ls with
  | nil => intro db; rfl
  | cons x rest ih =>
    intro db
    rw [List.foldl_cons, ih (fun y hy => ha y (List.mem_cons_of_mem _ hy))]
    show (db.journal ++ [(⟨inv, x.article_id, x.quantite - get_stock db x.article_id⟩ : JournalRow)]).filter
        (fun r => decide (r.inventaire_id = inv ∧ r.article_id = a)) = _
    rw [List.filter_append]
    have hx : ([⟨inv, x.article_id, x.quantite - get_stock db x.article_id⟩] : List JournalRow).filter
        (fun r => decide (r.inventaire_id = inv ∧ r.article_id = a)) = [] := by
      simp [ha x (List.mem_cons_self _ _)]
    rw [hx, List.append_nil]

/-- The snapshot loop, when its lines contain exactly one line for
article a, sets a's stock to that line's quantity and appends exactly one
journal row for (inv, a), with delta = observed − previous stock. -/
lemma apply_fold_single (inv a : Nat) (ls : List LigneRow) :
    ∀ db (l : LigneRow) (S : Int) (p : Option ℚ),
      ls.filter (fun x => decide (x.article_id = a)) = [l] →
      db.articles a = some ⟨some S, p⟩ →
      (ls.foldl (apply_snapshot_item inv) db).articles a = some ⟨some l.quantite, p⟩ ∧
      (ls.foldl (apply_snapshot_item inv) db).journal.filter
          (fun r => decide (r.inventaire_id = inv ∧ r.article_id = a))
        = db.journal.filter (fun r => decide (r.inventaire_id = inv ∧ r.article_id = a))
          ++ [⟨inv, a, l.quantite - S⟩] := by
  induction ls with
  | nil => intro db l S p hf; simp at hf
  | cons x rest ih =>
    intro db l S p hf hart
    by_cases hx : x.article_id = a
    · rw [List.filter_cons_of_pos (by simpa using hx)] at hf
      injection hf with h1 h2
      subst h1
      have hrestne : ∀ y ∈ rest, y.article_id ≠ a := fun y hy => by
        simpa using List.filter_eq_nil_iff.mp h2 y hy
      rw [List.foldl_cons]
      have hstock1 : (apply_snapshot_item inv db x).articles a
          = some ⟨some x.quantite, p⟩ := by
        show (set_stock db x.article_id x.quantite).articles a = _
        rw [hx]
        simp [set_stock, hart]
      have hj1 : (apply_snapshot_item inv db x).journal
          = db.journal ++ [⟨inv, a, x.quantite - S⟩] := by
        show db.journal ++ [(⟨inv, x.article_id, x.quantite - get_stock db x.article_id⟩ : JournalRow)] = _
        rw [hx, get_stock_eq db a S p hart]
      refine ⟨?_, ?_⟩
      · rw [apply_fold_stock_other inv a rest hrestne, hstock1]
      · rw [apply_fold_journal_other inv a rest hrestne, hj1, List.filter_append]
        simp
    · rw [List.filter_cons_of_neg (by simpa using hx)] at hf
      rw [List.foldl_cons]
      have hart1 : (apply_snapshot_item inv db x).articles a = some ⟨some S, p⟩ := by
        show (set_stock db x.article_id x.quantite).articles a = _
        rw [set_stock_articles_other db x.article_id a _ (fun he => hx he.symm), hart]
      have hrec := ih (apply_snapshot_item inv db x) l S p hf hart1
      refine ⟨hrec.1, ?_⟩
      rw [hrec.2]
      have hjx : (apply_snapshot_item inv db x).journal.filter
          (fun r => decide (r.inventaire_id = inv ∧ r.article_id = a))
          = db.journal.filter (fun r => decide (r.inventaire_id = inv ∧ r.article_id = a)) := by
        show (db.journal ++ [(⟨inv, x.article_id, x.quantite - get_stock db x.article_id⟩ : JournalRow)]).filter
            (fun r => decide (r.inventaire_id = inv ∧ r.article_id = a)) = _
        rw [List.filter_append]
        simp [hx]
      rw [hjx]

/-- The revert loop over journal rows of other articles leaves an
article's row unchanged. -/
lemma revert_fold_stock_other (a : Nat) (rows : List JournalRow)
    (ha : ∀ r ∈ rows, r.article_id ≠ a) :
    ∀ db, (rows.foldl revert_item db).articles a = db.articles a := by
  induction rows with
  | nil => intro db; rfl
  | cons r rest ih =>
    intro db
    rw [List.foldl_cons, ih (fun y hy => ha y (List.mem_cons_of_mem _ hy))]
    exact set_stock_articles_other db r.article_id a _
      (fun he => ha r (List.mem_cons_self _ _) he.symm)

/-- The revert loop, when its rows contain exactly one row for article a,
subtracts that row's delta from a's stock (floor 0). -/
lemma revert_fold_single (a : Nat) (rows : List JournalRow) :
    ∀ db (r0 : JournalRow) (st : Int) (pp : Option ℚ),
      rows.filter (fun r => decide (r.article_id = a)) = [r0] →
      db.articles a = some ⟨some st, pp⟩ →
      (rows.foldl revert_item db).articles a = some ⟨some (max 0 (st - r0.delta)), pp⟩ := by
  induction rows with
  | nil => intro db r0 st pp hf; simp at hf
  | cons r rest ih =>
    intro db r0 st pp hf hart
    by_cases hr : r.article_id = a
    · rw [List.filter_cons_of_pos (by simpa using hr)] at hf
      injection hf with h1 h2
      subst h1
      have hrestne : ∀ y ∈ rest, y.article_id ≠ a := fun y hy => by
        simpa using List.filter_eq_nil_iff.mp h2 y hy
      rw [List.foldl_cons, revert_fold_stock_other a rest hrestne]
      show (set_stock db r.article_id (max 0 (get_stock db r.article_id - r.delta))).articles a = _
      rw [hr, get_stock_eq db a st pp hart]
      simp [set_stock, hart]
    · rw [List.filter_cons_of_neg (by simpa using hr)] at hf
      rw [List.foldl_cons]
      have hart1 : (revert_item db r).articles a = some ⟨some st, pp⟩ := by
        show (set_stock db r.article_id (max 0 (get_stock db r.article_id - r.delta))).articles a = _
        rw [set_stock_articles_other db r.article_id a _ (fun he => hr he.symm), hart]
      exact ih (revert_item db r) r0 st pp hf hart1

/-- The revert loop never touches the journal table. -/
lemma revert_fold_journal (rows : List JournalRow) :
    ∀ db, (rows.foldl revert_item db).journal = db.journal := by
  induction rows with
  | nil => intro db; rfl
  | cons r rest ih =>
    intro db
    rw [List.foldl_cons, ih]
    rfl

/-- After `revert_inventory_effect`, no journal row for the inventaire
remains. -/
lemma revert_journal_empty (db : Db) (inv : Nat) :
    (revert_inventory_effect db inv).journal.filter
      (fun r => decide (r.inventaire_id = inv)) = [] := by
  simp only [revert_inventory_effect]
  rw [revert_fold_journal, List.filter_filter]
  apply List.filter_eq_nil_iff.mpr
  intro r _
  simp

/-- In a list of lines with pairwise-distinct article ids, the lines for a
member's article are exactly that member. -/
lemma pairwise_filter_singleton (ls : List LigneRow) (l : LigneRow)
    (hp : ls.Pairwise (fun x y => x.article_id ≠ y.article_id)) (hl : l ∈ ls) :
    ls.filter (fun x => decide (x.article_id = l.article_id)) = [l] := by
  induction ls with
  | nil => cases hl
  | cons x rest ih =>
    rw [List.pairwise_cons] at hp
    rcases List.mem_cons.mp hl with rfl | hmem
    · rw [List.filter_cons_of_pos (by simp)]
      have hnil : rest.filter (fun y => decide (y.article_id = l.article_id)) = [] := by
        apply List.filter_eq_nil_iff.mpr
        intro y hy
        simpa using (hp.1 y hy).symm
      rw [hnil]
    · have hxl : x.article_id ≠ l.article_id := hp.1 l hmem
      rw [List.filter_cons_of_neg (by simpa using hxl)]
      exact ih hp.2 hmem

/-- C3: on a fresh inventaire (no pre-existing journal rows) whose lines
observe pairwise-distinct articles — each observed article has one line,
as the claim's "exactly one journal row for (inventaire_id, article_id)"
presupposes — `apply_inventory_snapshot` sets every observed article's
stock (current value S ≥ 0) to its line's quantity Q and records exactly
one journal row (inv, article, Q − S) for it; `revert_inventory_effect`
run immediately afterwards restores every such article's stock to exactly
S and leaves zero journal rows for the inventaire. -/
theorem C3_snapshot_reversible (db : Db) (inv : Nat)
    (hdist : (snapshot_lines db inv).Pairwise (fun x y => x.article_id ≠ y.article_id))
    (hj : db.journal.filter (fun r => decide (r.inventaire_id = inv)) = []) :
    (∀ l ∈ snapshot_lines db inv, ∀ S p,
      db.articles l.article_id = some ⟨some S, p⟩ → 0 ≤ S →
      get_stock (apply_inventory_snapshot db inv) l.article_id = l.quantite ∧
      (apply_inventory_snapshot db inv).journal.filter
          (fun r => decide (r.inventaire_id = inv ∧ r.article_id = l.article_id))
        = [⟨inv, l.article_id, l.quantite - S⟩] ∧
      get_stock (revert_inventory_effect (apply_inventory_snapshot db inv) inv)
          l.article_id = S) ∧
    (revert_inventory_effect (apply_inventory_snapshot db inv) inv).journal.filter
      (fun r => decide (r.inventaire_id = inv)) = [] := by
  refine ⟨fun l hl S p hart hS => ?_, revert_journal_empty _ inv⟩
  have hfl : (snapshot_lines db inv).filter
      (fun x => decide (x.article_id = l.article_id)) = [l] :=
    pairwise_filter_singleton _ l hdist hl
  have hne : ¬ snapshot_lines db inv = [] := List.ne_nil_of_mem hl
  have hA : apply_inventory_snapshot db inv
      = (snapshot_lines db inv).foldl (apply_snapshot_item inv) db := by
    simp [apply_inventory_snapshot, hne]
  have happly := apply_fold_single inv l.article_id (snapshot_lines db inv)
    db l S p hfl hart
  have hstockA : (apply_inventory_snapshot db inv).articles l.article_id
      = some ⟨some l.quantite, p⟩ := by
    rw [hA]
    exact happly.1
  have hbase : db.journal.filter
      (fun r => decide (r.inventaire_id = inv ∧ r.article_id = l.article_id)) = [] := by
    apply List.filter_eq_nil_iff.mpr
    intro r hr
    have h2 := List.filter_eq_nil_iff.mp hj r hr
    simp at h2 ⊢
    exact fun h3 _ => h2 h3
  have hjA : (apply_inventory_snapshot db inv).journal.filter
      (fun r => decide (r.inventaire_id = inv ∧ r.article_id = l.article_id))
      = [⟨inv, l.article_id, l.quantite - S⟩] := by
    rw [hA, happly.2, hbase, List.nil_append]
  refine ⟨get_stock_eq _ _ _ _ hstockA, hjA, ?_⟩
  have hrows : ((apply_inventory_snapshot db inv).journal.filter
      (fun r => decide (r.inventaire_id = inv))).filter
      (fun r => decide (r.article_id = l.article_id))
      = [⟨inv, l.article_id, l.quantite - S⟩] := by
    rw [List.filter_filter]
    rw [List.filter_congr (fun r _ => ?_)]
    · exact hjA
    · simp [Bool.and_comm]
  have hfold := revert_fold_single l.article_id
    ((apply_inventory_snapshot db inv).journal.filter
      (fun r => decide (r.inventaire_id = inv)))
    (apply_inventory_snapshot db inv) ⟨inv, l.article_id, l.quantite - S⟩
    l.quantite p hrows hstockA
  have hRart : (revert_inventory_effect (apply_inventory_snapshot db inv) inv).articles
      l.article_id = some ⟨some S, p⟩ := by
    show (((apply_inventory_snapshot db inv).journal.filter
        (fun r => decide (r.inventaire_id = inv))).foldl revert_item
        (apply_inventory_snapshot db inv)).articles l.article_id = _
    rw [hfold]
    have hd : (⟨inv, l.article_id, l.quantite - S⟩ : JournalRow).delta
        = l.quantite - S := rfl
    rw [hd]
    have hm : max 0 (l.quantite - (l.quantite - S)) = S := by omega
    rw [hm]
  exact get_stock_eq _ _ _ _ hRart

/-- C3 witness: the spec's two-article instance — articles 1 and 2 with
stocks 5 and 10, inventaire 1 observing 8 and 7: stocks go to 8 and 7
with journal deltas +3 and -3, and the immediate revert restores 5 and 10
with an empty journal for the inventaire. -/
theorem C3_snapshot_reversible_witness :
    get_stock (apply_inventory_snapshot db_c3 1) 1 = 8 ∧
    get_stock (apply_inventory_snapshot db_c3 1) 2 = 7 ∧
    (apply_inventory_snapshot db_c3 1).journal.filter
        (fun r => decide (r.inventaire_id = 1 ∧ r.article_id = 1)) = [⟨1, 1, 3⟩] ∧
    (apply_inventory_snapshot db_c3 1).journal.filter
        (fun r => decide (r.inventaire_id = 1 ∧ r.article_id = 2)) = [⟨1, 2, -3⟩] ∧
    get_stock (revert_inventory_effect (apply_inventory_snapshot db_c3 1) 1) 1 = 5 ∧
    get_stock (revert_inventory_effect (apply_inventory_snapshot db_c3 1) 1) 2 = 10 ∧
    (revert_inventory_effect (apply_inventory_snapshot db_c3 1) 1).journal.filter
        (fun r => decide (r.inventaire_id = 1)) = [] := by
  have h := C3_snapshot_reversible db_c3 1 (by decide) rfl
  have h1 := h.1 ⟨1, 1, 8⟩ (by decide) 5 none rfl (by decide)
  have h2 := h.1 ⟨1, 2, 7⟩ (by decide) 10 none rfl (by decide)
  exact ⟨h1.1, h2.1, h1.2.1, h2.2.1, h1.2.2, h2.2.2, h.2⟩

/-- The FIFO ordering key is total. -/
lemma batch_key_le_total (b c : Batch) :
    batch_key_le b c = true ∨ batch_key_le c b = true := by
  simp [batch_key_le]
  omega

/-- The FIFO ordering key is transitive. -/
lemma batch_key_le_trans {x y z : Batch} (h1 : batch_key_le x y = true)
    (h2 : batch_key_le y z = true) : batch_key_le x z = true := by
  simp [batch_key_le] at h1 h2 ⊢
  omega

/-- `insert_by_key` is a permutation of consing. -/
lemma perm_insert_by_key (b : Batch) (l : List Batch) :
    (insert_by_key b l).Perm (b :: l) := by
  induction l with
  | nil => exact List.Perm.refl _
  | cons c cs ih =>
    unfold insert_by_key
    by_cases h : batch_key_le b c
    · rw [if_pos h]
    · rw [if_neg h]
      exact (ih.cons c).trans (List.Perm.swap b c cs)

/-- `sort_by_key` permutes its input. -/
lemma perm_sort_by_key (l : List Batch) : (sort_by_key l).Perm l := by
  induction l with
  | nil => exact List.Perm.refl _
  | cons b bs ih =>
    unfold sort_by_key
    exact (perm_insert_by_key b (sort_by_key bs)).trans (ih.cons b)

/-- `insert_by_key` preserves sortedness. -/
lemma sorted_insert_by_key (b : Batch) (l : List Batch)
    (hl : List.Sorted (fun x y => batch_key_le x y = true) l) :
    List.Sorted (fun x y => batch_key_le x y = true) (insert_by_key b l) := by
  induction l with
  | nil => simp [insert_by_key]
  | cons c cs ih =>
    unfold insert_by_key
    rw [List.sorted_cons] at hl
    by_cases h : batch_key_le b c
    · rw [if_pos h, List.sorted_cons]
      refine ⟨fun x hx => ?_, List.sorted_cons.mpr hl⟩
      rcases List.mem_cons.mp hx with rfl | hx
      · exact h
      · exact batch_key_le_trans h (hl.1 x hx)
    · rw [if_neg h, List.sorted_cons]
      refine ⟨fun x hx => ?_, ih hl.2⟩
      have hx' : x ∈ b :: cs := (perm_insert_by_key b cs).mem_iff.mp hx
      rcases List.mem_cons.mp hx' with rfl | hx2
      · exact (batch_key_le_total x c).resolve_left h
      · exact hl.1 x hx2

/-- `sort_by_key` sorts by the (purchase_date, id) key. -/
lemma sorted_sort_by_key (l : List Batch) :
    List.Sorted (fun x y => batch_key_le x y = true) (sort_by_key l) := by
  induction l with
  | nil => simp [sort_by_key]
  | cons b bs ih => exact sorted_insert_by_key b (sort_by_key bs) ih

/-- First created batch: 5 units at price 2. -/
def b1 : Batch := ⟨1, 1, 5, 5, 2, 0, "buvette"⟩

/-- Second created batch: 10 units at price 3. -/
def b2 : Batch := ⟨2, 1, 10, 10, 3, 0, "buvette"⟩

/-- Third created batch: 8 units at price 5/2. -/
def b3 : Batch := ⟨3, 1, 8, 8, 5/2, 0, "buvette"⟩

/-- Three purchase batches created in order: (qty 5, price 2),
(qty 10, price 3), (qty 8, price 5/2), all for article 1 in scope
"buvette". -/
def db_c6 : Db := { empty_db with batches := [b1, b2, b3] }

/-- `db_c6` is exactly the state after three `create_purchase_batch` calls
in that order on an empty database. -/
lemma db_c6_created :
    db_c6 = (create_purchase_batch
      ((create_purchase_batch
        ((create_purchase_batch empty_db 1 5 2 0 "buvette").1)
        1 10 3 0 "buvette").1)
      1 8 (5/2) 0 "buvette").1 := by
  rfl

/-- One purchase batch (qty 5, price 2) for article 1 in scope "buvette". -/
def db_c6w : Db := { empty_db with batches := [b1] }

/-- C6: (i) on batches (5 @ 2), (10 @ 3), (8 @ 5/2) created in that order,
consuming 12 units costs 31, drains the first batch, leaves 3 in the
second and 8 in the third, consuming 5 from batch 1 and 7 from batch 2;
(ii) the batches are visited sorted ascending by (purchase_date, id),
drawn exactly from the positive-remaining batches of the article and
scope; (iii) whenever the batches are exhausted early with at least one
batch consumed, the shortfall is costed at the running average price
(consumed cost / consumed units) and added, with no error. -/
theorem C6_fifo_consumption :
    ((consume_purchase_batches_fifo db_c6 1 12 "buvette").2.1 = 31 ∧
     (consume_purchase_batches_fifo db_c6 1 12 "buvette").1.batches.map
        Batch.remaining_quantity = [0, 3, 8] ∧
     (consume_purchase_batches_fifo db_c6 1 12 "buvette").2.2
        = [⟨1, 5, 2, 10⟩, ⟨2, 7, 3, 21⟩]) ∧
    (∀ db article_id scope,
      List.Sorted (fun x y => batch_key_le x y = true)
        (available_batches db article_id scope) ∧
      (available_batches db article_id scope).Perm
        (db.batches.filter fun b => decide (b.article_id = article_id ∧
          b.scope = scope ∧ 0 < b.remaining_quantity))) ∧
    (∀ db article_id (q : Int) scope db1 total acc rem,
      (available_batches db article_id scope).foldl fifo_step (db, 0, [], q)
        = (db1, total, acc, rem) →
      0 < rem → acc ≠ [] →
      consume_purchase_batches_fifo db article_id q scope
        = (db1, total + (rem : ℚ) * (total / ((q - rem : Int) : ℚ)), acc)) := by
  have havail : available_batches db_c6 1 "buvette" = [b1, b2, b3] := by
    simp [available_batches, db_c6, empty_db, b1, b2, b3, sort_by_key,
      insert_by_key, batch_key_le]
  have hfold : (available_batches db_c6 1 "buvette").foldl fifo_step (db_c6, 0, [], 12)
      = ({ db_c6 with batches := [⟨1, 1, 5, 0, 2, 0, "buvette"⟩,
            ⟨2, 1, 10, 3, 3, 0, "buvette"⟩, b3] },
         31, [⟨1, 5, 2, 10⟩, ⟨2, 7, 3, 21⟩], 0) := by
    rw [havail]
    norm_num [fifo_step, b1, b2, b3, set_batch_remaining, db_c6, empty_db]
  have hconsume : consume_purchase_batches_fifo db_c6 1 12 "buvette"
      = ({ db_c6 with batches := [⟨1, 1, 5, 0, 2, 0, "buvette"⟩,
            ⟨2, 1, 10, 3, 3, 0, "buvette"⟩, b3] },
         31, [⟨1, 5, 2, 10⟩, ⟨2, 7, 3, 21⟩]) := by
    simp only [consume_purchase_batches_fifo]
    rw [hfold]
    norm_num
  refine ⟨⟨?_, ?_, ?_⟩,
    fun db article_id scope => ⟨sorted_sort_by_key _, perm_sort_by_key _⟩,
    fun db article_id q scope db1 total acc rem hfold' h1 h2 => ?_⟩
  · rw [hconsume]
  · rw [hconsume]
    norm_num [db_c6, empty_db, b3]
  · rw [hconsume]
  · simp only [consume_purchase_batches_fifo]
    rw [hfold']
    simp [h1, h2]

/-- C6 witness: a single batch of 5 units at price 2, consuming 8:
the 3 missing units are costed at the average 10/5 = 2, total 16. -/
theorem C6_fifo_consumption_witness :
    consume_purchase_batches_fifo db_c6w 1 8 "buvette"
      = ({ db_c6w with batches := [⟨1, 1, 5, 0, 2, 0, "buvette"⟩] },
         16, [⟨1, 5, 2, 10⟩]) := by
  have hfold : (available_batches db_c6w 1 "buvette").foldl fifo_step (db_c6w, 0, [], 8)
      = ({ db_c6w with batches := [⟨1, 1, 5, 0, 2, 0, "buvette"⟩] },
         10, [⟨1, 5, 2, 10⟩], 3) := by
    norm_num [available_batches, sort_by_key, insert_by_key, batch_key_le,
      fifo_step, set_batch_remaining, db_c6w, empty_db, b1]
  have h := C6_fifo_consumption.2.2 db_c6w 1 8 "buvette" _ 10 [⟨1, 5, 2, 10⟩] 3
    hfold (by norm_num) (by simp)
  rw [h]
  norm_num

/-- Attempt outcomes for the C7 witness: locked, locked, then success. -/
def out_c7 : Nat → AttemptOutcome
  | 0 => .operationalError "database is locked"
  | 1 => .operationalError "database is locked"
  | _ => .success 1

/-- C7: with `retries = 3` and initial delay d, (i) lock, lock, success
returns the rowcount after exactly 3 attempts, sleeping d then 2d;
(ii) lock on every attempt raises the last lock error after exactly 3
attempts (rolling back); (iii) a non-lock operational error on the first
attempt raises after exactly one attempt with a rollback and no sleep;
(iv) so does any other exception. -/
theorem C7_execute_retry (out : Nat → AttemptOutcome) (d : ℚ) (n : Int)
    (m0 m1 m2 mo : String) :
    (out 0 = .operationalError m0 → is_lock_message m0 = true →
     out 1 = .operationalError m1 → is_lock_message m1 = true →
     out 2 = .success n →
     execute out 3 d = ⟨3, [d, d * 2], false, .ok (some n)⟩) ∧
    (out 0 = .operationalError m0 → is_lock_message m0 = true →
     out 1 = .operationalError m1 → is_lock_message m1 = true →
     out 2 = .operationalError m2 → is_lock_message m2 = true →
     execute out 3 d = ⟨3, [d, d * 2], true, .error (.operational m2)⟩) ∧
    (out 0 = .operationalError mo → is_lock_message mo = false →
     execute out 3 d = ⟨1, [], true, .error (.operational mo)⟩) ∧
    (out 0 = .otherError mo →
     execute out 3 d = ⟨1, [], true, .error (.other mo)⟩) := by
  refine ⟨fun h0 hl0 h1 hl1 h2 => ?_, fun h0 hl0 h1 hl1 h2 hl2 => ?_,
    fun h0 hl0 => ?_, fun h0 => ?_⟩
  · simp [execute, execute_go, h0, hl0, h1, hl1, h2]
  · simp [execute, execute_go, h0, hl0, h1, hl1, h2, hl2]
  · simp [execute, execute_go, h0, hl0]
  · simp [execute, execute_go, h0]

/-- C7 witness: two "database is locked" failures then success, with
`retry_delay = 1/2`: 3 attempts, sleeps 1/2 then 1, result 1. -/
theorem C7_execute_retry_witness :
    execute out_c7 3 (1/2) = ⟨3, [1/2, 1], false, .ok (some 1)⟩ := by
  have h := (C7_execute_retry out_c7 (1/2) 1 "database is locked"
      "database is locked" "x" "y").1 rfl (by decide) rfl (by decide) rfl
  rw [h]
  norm_num

/-- The invariant "`buvette_articles.stock` is never negative". -/
def stock_nonneg (db : Db) : Prop :=
  ∀ i art s, db.articles i = some art → art.stock = some s → 0 ≤ s

/-- C5 counterexample: `apply_inventory_snapshot` writes the observed
quantity without clamping, so a line observing -1 drives the stock of
article 1 (previously 5) to -1, violating the invariant. -/
theorem C5_counterexample :
    (apply_inventory_snapshot db_c5 1).articles 1 = some ⟨some (-1), none⟩ ∧
    ¬ stock_nonneg (apply_inventory_snapshot db_c5 1) := by
  refine ⟨rfl, fun h => ?_⟩
  have := h 1 ⟨some (-1), none⟩ (-1) rfl rfl
  exact absurd this (by decide)

/-- `set_stock` with a non-negative quantity preserves the invariant. -/
lemma stock_nonneg_set_stock (db : Db) (a : Nat) (q : Int) (hq : 0 ≤ q)
    (h : stock_nonneg db) : stock_nonneg (set_stock db a q) := by
  intro i art s hi hs
  by_cases hia : i = a
  · subst hia
    simp only [set_stock, if_pos rfl] at hi
    cases hdb : db.articles i with
    | none => rw [hdb] at hi; simp at hi
    | some art0 =>
      rw [hdb] at hi
      simp at hi
      rw [← hi] at hs
      simp at hs
      omega
  · apply h i art s ?_ hs
    simpa [set_stock, hia] using hi

/-- The revert loop preserves the invariant. -/
lemma stock_nonneg_revert_fold (rows : List JournalRow) :
    ∀ db, stock_nonneg db → stock_nonneg (rows.foldl revert_item db) := by
  induction rows with
  | nil => intro db h; exact h
  | cons r rest ih =>
    intro db h
    rw [List.foldl_cons]
    exact ih _ (stock_nonneg_set_stock db r.article_id _ (le_max_left 0 _) h)

/-- The snapshot loop preserves the invariant when every line in it
observes a non-negative quantity. -/
lemma stock_nonneg_snapshot_fold (inv : Nat) (ls : List LigneRow) :
    ∀ db, (∀ l ∈ ls, 0 ≤ l.quantite) → stock_nonneg db →
      stock_nonneg (ls.foldl (apply_snapshot_item inv) db) := by
  induction ls with
  | nil => intro db _ h; exact h
  | cons l rest ih =>
    intro db hq h
    rw [List.foldl_cons]
    apply ih _ (fun x hx => hq x (List.mem_cons_of_mem _ hx))
    intro i art s hi hs
    exact stock_nonneg_set_stock db l.article_id l.quantite
      (hq l (List.mem_cons_self _ _)) h i art s hi hs

/-- C5 amended: the non-negativity invariant is preserved by `set_stock`
with a non-negative value, by `adjust_stock`, `revert_inventory_effect`
and `recompute_stock_for_article` unconditionally, and by
`apply_inventory_snapshot` provided every inventory line observes a
non-negative quantity (a negative observed quantity is written through
unclamped, see the counterexample). -/
theorem C5_stock_nonneg_invariant :
    (∀ db a q, 0 ≤ q → stock_nonneg db → stock_nonneg (set_stock db a q)) ∧
    (∀ db a d, stock_nonneg db → stock_nonneg (adjust_stock db a d)) ∧
    (∀ db inv, stock_nonneg db → stock_nonneg (revert_inventory_effect db inv)) ∧
    (∀ db a, stock_nonneg db → stock_nonneg (recompute_stock_for_article db a).1) ∧
    (∀ db inv, (∀ l ∈ db.lignes, 0 ≤ l.quantite) → stock_nonneg db →
      stock_nonneg (apply_inventory_snapshot db inv)) := by
  refine ⟨stock_nonneg_set_stock,
    fun db a d h => stock_nonneg_set_stock db a _ (le_max_left 0 _) h,
    fun db inv h => ?_,
    fun db a h => stock_nonneg_set_stock db a _ (le_max_left 0 _) h,
    fun db inv hq h => ?_⟩
  · intro i art s hi hs
    exact stock_nonneg_revert_fold _ db h i art s hi hs
  · by_cases hsnap : snapshot_lines db inv = []
    · simpa [apply_inventory_snapshot, hsnap] using h
    · intro i art s hi hs
      refine stock_nonneg_snapshot_fold inv (snapshot_lines db inv) db
        (fun l hl => hq l (List.mem_of_mem_filter hl)) h i art s ?_ hs
      simpa [apply_inventory_snapshot, hsnap] using hi

/-- C5 witness: the invariant holds after adjusting article 1 of a
database whose only article has stock 2 by -3. -/
theorem C5_stock_nonneg_invariant_witness :
    stock_nonneg (adjust_stock db_c5w 1 (-3)) := by
  apply C5_stock_nonneg_invariant.2.1
  intro i art s hi hs
  have h' : (if i = 1 then some (⟨some 2, none⟩ : Article) else none) = some art := hi
  by_cases h1 : i = 1
  · rw [if_pos h1] at h'
    injection h' with h''
    subst h''
    injection hs with h3
    omega
  · rw [if_neg h1] at h'
    cases h'

end Gestion
